import Mathlib

/-!
Verification of the `aws_codecommit` CI/CD trigger-decision component.

This development shallowly embeds the Python sources:
  * `aws_codecommit/conventional_commits.py` (tokenizer and conventional-commit
    message parsing),
  * `aws_codecommit/notification.py` (the `CodeCommitEvent` record, its event
    classification and derived accessors, env-var round-trip),
  * `lambda_app/lambda_handler.py` (the build-trigger policy
    `do_we_trigger_build_job`).

Python strings are modelled as Lean `String`/`List Char`; `str.upper`,
`str.lower` and `str.strip` are modelled character-wise (faithful on the ASCII
inputs this code base manipulates).  The fallible Python constructs (regex
non-match raising on subscript, `**kwargs` construction, list indexing) are
modelled with `Option`.
-/

namespace AwsCC

/-! ## Python string primitives -/

/-- Model of Python `str.upper()` (character-wise, faithful on ASCII). -/
def pyUpper (s : String) : String := ⟨s.data.map Char.toUpper⟩

/-- Model of Python `str.lower()` on the character list of a string. -/
def pyLowerData (s : String) : List Char := s.data.map Char.toLower

/-- Model of Python `str.startswith(pre)`. -/
def pyStartsWith (s pre : String) : Bool := pre.data.isPrefixOf s.data

/-- Drop the longest suffix of `l` all of whose characters satisfy `p`. -/
def dropTrailingWhile (p : Char → Bool) (l : List Char) : List Char :=
  ((l.reverse).dropWhile p).reverse

/-- Model of Python `str.strip()`: remove leading and trailing whitespace. -/
def pyStrip (l : List Char) : List Char :=
  dropTrailingWhile Char.isWhitespace (l.dropWhile Char.isWhitespace)

/-- Model of Python `str.split(sep)` for a one-character separator:
`"".split(sep) == [""]`, and consecutive separators yield empty pieces. -/
def splitOnChar (sep : Char) : List Char → List (List Char)
  | [] => [[]]
  | c :: rest =>
    if c = sep then [] :: splitOnChar sep rest
    else
      match splitOnChar sep rest with
      | [] => [[c]]
      | piece :: pieces => (c :: piece) :: pieces

/-! ## `conventional_commits.py`: tokenizer -/

/-- The fixed delimiter set `DELIMITERS` of `conventional_commits.py`. -/
def DELIMITERS : String := "!@#$%^&*()_+-=~`[\x7b]\x7d\\|;:\x27\",<.>/? \t\n"

/-- The loop `for delimiter in DELIMITERS: text = text.replace(delimiter, " ")`.
Every delimiter is replaced by a space; since the space character itself is a
delimiter, the sequential replaces equal one simultaneous character map. -/
def pyReplaceDelims (l : List Char) : List Char :=
  l.map (fun c => if DELIMITERS.data.contains c then ' ' else c)

/-- Model of `tokenize` from `conventional_commits.py`. -/
def tokenize (text : String) : List String :=
  (((splitOnChar ' ' (pyReplaceDelims text.data)).map pyStrip).filter
    (fun w => !w.isEmpty)).map (fun w => (⟨w⟩ : String))

/-! ## `conventional_commits.py`: the subject-line grammar

The regex of `_get_subject_regex` is
`^(?P<types>[\w ,]+)(?:\((?P<scope>[\w-]+)\))?(?P<breaking>!)?:[ \t]?(?P<description>.+)$`.
Because the character class of `types` excludes `(`, `!` and `:`, the class of
`scope` excludes `)`, and the pattern after each greedy piece starts with a
character outside that piece's class, Python's backtracking matcher is
equivalent to the maximal-munch interpretation implemented here (the only place
where genuine backtracking survives is the optional blank before the
description, which `descStep` replays).  `\w` is modelled over ASCII. -/

/-- Characters matched by `\w` (ASCII model). -/
def isWordChar (c : Char) : Bool := c.isAlphanum || c = '_'

/-- Characters matched by the `types` class `[\w ,]`. -/
def isTypesChar (c : Char) : Bool := isWordChar c || c = ' ' || c = ','

/-- Characters matched by the `scope` class `[\w-]`. -/
def isScopeChar (c : Char) : Bool := isWordChar c || c = '-'

/-- Result of a successful subject match: the four capture groups. -/
structure SubjectMatch where
  types : List Char
  scope : Option (List Char)
  breaking : Option (List Char)
  description : List Char
  deriving DecidableEq, Repr

/-- The optional group `(?:\((?P<scope>[\w-]+)\))?` followed by the rest.
Returns the captured scope and the remaining input. -/
def scopeStep (r0 : List Char) : Option (Option (List Char) × List Char) :=
  match r0 with
  | '(' :: r1 =>
    match r1.dropWhile isScopeChar with
    | ')' :: r3 =>
      if r1.takeWhile isScopeChar = [] then none
      else some (some (r1.takeWhile isScopeChar), r3)
    | _ => none
  | _ => some (none, r0)

/-- The pattern `(?P<breaking>!)?:` — an optional `!` then a mandatory `:`. -/
def breakStep (r : List Char) : Option (Option (List Char) × List Char) :=
  match r with
  | '!' :: ':' :: r2 => some (some ['!'], r2)
  | ':' :: r2 => some (none, r2)
  | _ => none

/-- The tail `(?P<description>.+)$` of the pattern: `.` excludes the newline
and `$` also matches just before one trailing newline. -/
def descCore (r : List Char) : Option (List Char) :=
  let d := if r.getLast? = some '\n' then r.dropLast else r
  if d ≠ [] ∧ '\n' ∉ d then some d else none

/-- The tail `[ \t]?(?P<description>.+)$`: try consuming the optional blank
first (greedy), fall back to not consuming it. -/
def descStep (r : List Char) : Option (List Char) :=
  match r with
  | [] => none
  | c :: r1 =>
    if c = ' ' ∨ c = '\t' then
      match descCore r1 with
      | some d => some d
      | none => descCore r
    else descCore r

/-- Model of `self.subject_regex.match(subject)`. -/
def matchSubject (s : List Char) : Option SubjectMatch :=
  if s.takeWhile isTypesChar = [] then none
  else
    match scopeStep (s.dropWhile isTypesChar) with
    | none => none
    | some (sc, r) =>
      match breakStep r with
      | none => none
      | some (br, r2) =>
        match descStep r2 with
        | none => none
        | some d => some ⟨s.takeWhile isTypesChar, sc, br, d⟩

/-! ## `conventional_commits.py`: parser and semantic-commit predicates -/

/-- Model of the `ConventionalCommit` dataclass. -/
structure ConventionalCommit where
  types : List String
  description : String
  scope : Option String
  breaking : Option String
  deriving DecidableEq, Repr

/-- The values of `SemanticCommitEnum`, in declaration order. -/
def semanticCommitTypeValues : List String :=
  ["chore", "feat", "feature", "fix", "doc", "test", "utest", "itest", "ltest",
   "build", "pub", "publish", "rls", "release", "clean", "cleanup",
   "dev", "develop", "int", "stage", "staging", "qa", "preprod", "prod",
   "blue", "green"]

/-- `ConventionalCommitParser.__init__`: `[t.lower().strip() for t in types]`. -/
def mkParserTypes (types : List String) : List String :=
  types.map (fun t => (⟨pyStrip (pyLowerData t)⟩ : String))

/-- The vocabulary of `default_parser = ConventionalCommitParser(types=list(SemanticCommitEnum))`. -/
def defaultParserTypes : List String := mkParserTypes semanticCommitTypeValues

/-- Model of `ConventionalCommitParser.extract_subject`: first line, stripped. -/
def extract_subject (msg : String) : String :=
  ⟨pyStrip ((splitOnChar '\n' msg.data).headD [])⟩

/-- Model of `ConventionalCommitParser.extract_commit`; `none` models the
`TypeError` raised when the regex does not match.  The declared types are
split on commas, stripped, and kept only when present in the vocabulary. -/
def extract_commit (voc : List String) (subject : String) : Option ConventionalCommit :=
  match matchSubject subject.data with
  | none => none
  | some m =>
    some
      { types :=
          ((splitOnChar ',' m.types).map (fun w => (⟨pyStrip w⟩ : String))).filter
            (fun w => voc.contains w)
        description := ⟨m.description⟩
        scope := m.scope.map (fun sc => (⟨sc⟩ : String))
        breaking := m.breaking.map (fun br => (⟨br⟩ : String)) }

/-- Model of `ConventionalCommitParser.parse_message` (the `except` branch of
the Python code is the `none` of `extract_commit`). -/
def parse_message (voc : List String) (msg : String) : Option ConventionalCommit :=
  extract_commit voc (extract_subject msg)

/-- Model of `is_certain_semantic_commit` with the default parser; the stub
argument is normalised to a list (a Python `str` stub is a singleton). -/
def is_certain_semantic_commit (msg : String) (stub : List String) : Bool :=
  match parse_message defaultParserTypes msg with
  | none => false
  | some c => c.types.any (fun t => stub.contains t)

def is_feat_commit (m : String) : Bool := is_certain_semantic_commit m ["feat", "feature"]

def is_fix_commit (m : String) : Bool := is_certain_semantic_commit m ["fix"]

def is_test_commit (m : String) : Bool :=
  is_certain_semantic_commit m ["test", "utest", "itest", "ltest"]

def is_utest_commit (m : String) : Bool := is_certain_semantic_commit m ["utest"]

def is_itest_commit (m : String) : Bool := is_certain_semantic_commit m ["itest"]

def is_ltest_commit (m : String) : Bool := is_certain_semantic_commit m ["ltest"]

def is_doc_commit (m : String) : Bool := is_certain_semantic_commit m ["doc"]

def is_build_commit (m : String) : Bool := is_certain_semantic_commit m ["build"]

def is_publish_commit (m : String) : Bool := is_certain_semantic_commit m ["pub", "publish"]

def is_release_commit (m : String) : Bool := is_certain_semantic_commit m ["rls", "release"]

/-! ## `notification.py`: the `CodeCommitEvent` record -/

/-- Model of the `CodeCommitEvent` dataclass: thirty-three string fields, all
defaulting to the empty string, in declaration order. -/
structure CodeCommitEvent where
  afterCommitId : String := ""
  approvalStatus : String := ""
  author : String := ""
  beforeCommitId : String := ""
  callerUserArn : String := ""
  commentId : String := ""
  commitId : String := ""
  creationDate : String := ""
  destinationCommit : String := ""
  destinationCommitId : String := ""
  destinationReference : String := ""
  event : String := ""
  isMerged : String := ""
  inReplyTo : String := ""
  lastModifiedDate : String := ""
  mergeOption : String := ""
  notificationBody : String := ""
  oldCommitId : String := ""
  overrideStatus : String := ""
  pullRequestId : String := ""
  pullRequestStatus : String := ""
  referenceFullName : String := ""
  referenceName : String := ""
  referenceType : String := ""
  repositoryId : String := ""
  repositoryName : String := ""
  revisionId : String := ""
  sourceCommit : String := ""
  sourceCommitId : String := ""
  sourceReference : String := ""
  title : String := ""
  aws_account_id : String := ""
  aws_region : String := ""
  deriving DecidableEq, Repr

/-- `dataclasses.asdict(self).items()`: field name/value pairs in declaration
order. -/
def eventFields (e : CodeCommitEvent) : List (String × String) :=
  [("afterCommitId", e.afterCommitId),
   ("approvalStatus", e.approvalStatus),
   ("author", e.author),
   ("beforeCommitId", e.beforeCommitId),
   ("callerUserArn", e.callerUserArn),
   ("commentId", e.commentId),
   ("commitId", e.commitId),
   ("creationDate", e.creationDate),
   ("destinationCommit", e.destinationCommit),
   ("destinationCommitId", e.destinationCommitId),
   ("destinationReference", e.destinationReference),
   ("event", e.event),
   ("isMerged", e.isMerged),
   ("inReplyTo", e.inReplyTo),
   ("lastModifiedDate", e.lastModifiedDate),
   ("mergeOption", e.mergeOption),
   ("notificationBody", e.notificationBody),
   ("oldCommitId", e.oldCommitId),
   ("overrideStatus", e.overrideStatus),
   ("pullRequestId", e.pullRequestId),
   ("pullRequestStatus", e.pullRequestStatus),
   ("referenceFullName", e.referenceFullName),
   ("referenceName", e.referenceName),
   ("referenceType", e.referenceType),
   ("repositoryId", e.repositoryId),
   ("repositoryName", e.repositoryName),
   ("revisionId", e.revisionId),
   ("sourceCommit", e.sourceCommit),
   ("sourceCommitId", e.sourceCommitId),
   ("sourceReference", e.sourceReference),
   ("title", e.title),
   ("aws_account_id", e.aws_account_id),
   ("aws_region", e.aws_region)]

/-- The dataclass field names, in declaration order. -/
def eventFieldNames : List String :=
  ["afterCommitId", "approvalStatus", "author", "beforeCommitId", "callerUserArn",
   "commentId", "commitId", "creationDate", "destinationCommit", "destinationCommitId",
   "destinationReference", "event", "isMerged", "inReplyTo", "lastModifiedDate",
   "mergeOption", "notificationBody", "oldCommitId", "overrideStatus", "pullRequestId",
   "pullRequestStatus", "referenceFullName", "referenceName", "referenceType",
   "repositoryId", "repositoryName", "revisionId", "sourceCommit", "sourceCommitId",
   "sourceReference", "title", "aws_account_id", "aws_region"]

/-- Model of `CodeCommitEvent.to_env_var`:
`{(prefix + k).upper(): v for k, v in dataclasses.asdict(self).items()}`.
The environment mapping is an association list whose keys are pairwise
distinct, so it represents the Python dict faithfully. -/
def to_env_var (e : CodeCommitEvent) (pre : String) : List (String × String) :=
  (eventFields e).map (fun kv => (pyUpper (pre ++ kv.1), kv.2))

/-- Python dict lookup on an association list built left to right: a later
binding of the same key overwrites an earlier one, so look up from the right. -/
def dictGet (env : List (String × String)) (k : String) : Option String :=
  env.reverse.lookup k

/-- One field read of `from_env_var`: take the value under the upper-cased,
prefixed key when present, otherwise the dataclass default `""`. -/
def envField (env : List (String × String)) (pre name : String) : String :=
  (dictGet env (pyUpper (pre ++ name))).getD ""

/-- Model of `CodeCommitEvent.from_env_var`. -/
def from_env_var (env : List (String × String)) (pre : String) : CodeCommitEvent :=
  { afterCommitId := envField env pre "afterCommitId"
    approvalStatus := envField env pre "approvalStatus"
    author := envField env pre "author"
    beforeCommitId := envField env pre "beforeCommitId"
    callerUserArn := envField env pre "callerUserArn"
    commentId := envField env pre "commentId"
    commitId := envField env pre "commitId"
    creationDate := envField env pre "creationDate"
    destinationCommit := envField env pre "destinationCommit"
    destinationCommitId := envField env pre "destinationCommitId"
    destinationReference := envField env pre "destinationReference"
    event := envField env pre "event"
    isMerged := envField env pre "isMerged"
    inReplyTo := envField env pre "inReplyTo"
    lastModifiedDate := envField env pre "lastModifiedDate"
    mergeOption := envField env pre "mergeOption"
    notificationBody := envField env pre "notificationBody"
    oldCommitId := envField env pre "oldCommitId"
    overrideStatus := envField env pre "overrideStatus"
    pullRequestId := envField env pre "pullRequestId"
    pullRequestStatus := envField env pre "pullRequestStatus"
    referenceFullName := envField env pre "referenceFullName"
    referenceName := envField env pre "referenceName"
    referenceType := envField env pre "referenceType"
    repositoryId := envField env pre "repositoryId"
    repositoryName := envField env pre "repositoryName"
    revisionId := envField env pre "revisionId"
    sourceCommit := envField env pre "sourceCommit"
    sourceCommitId := envField env pre "sourceCommitId"
    sourceReference := envField env pre "sourceReference"
    title := envField env pre "title"
    aws_account_id := envField env pre "aws_account_id"
    aws_region := envField env pre "aws_region" }

/-! ## `notification.py`: event classification and accessors -/

/-- Model of `CodeCommitEvent.event_type` (`CodeCommitEventTypeEnum` values are
the strings of the Python class).  Python truthiness of `self.mergeOption` and
`self.inReplyTo` is non-emptiness. -/
def event_type (e : CodeCommitEvent) : String :=
  if e.event = "referenceUpdated" then
    if e.mergeOption ≠ "" then "commit_to_branch_from_merge" else "commit_to_branch"
  else if e.event = "referenceCreated" then "create_branch"
  else if e.event = "referenceDeleted" then "delete_branch"
  else if e.event = "pullRequestCreated" then
    if e.isMerged = "False" ∧ e.pullRequestStatus = "Open" then "pr_created" else "unknown"
  else if e.event = "pullRequestStatusChanged" ∧ e.pullRequestStatus = "Closed" then "pr_closed"
  else if e.event = "pullRequestSourceBranchUpdated" then "pr_updated"
  else if e.event = "pullRequestMergeStatusUpdated" ∧ e.isMerged = "True" ∧
      e.pullRequestStatus = "Closed" then "pr_merged"
  else if e.event = "commentOnPullRequestCreated" then
    if e.inReplyTo ≠ "" then "reply_to_comment" else "comment_on_pr_created"
  else if e.event = "commentOnPullRequestUpdated" then
    if e.inReplyTo ≠ "" then "reply_to_comment" else "comment_on_pr_updated"
  else if e.event = "pullRequestApprovalStateChanged" ∧ e.approvalStatus = "APPROVE" then
    "approve_pr"
  else if e.event = "pullRequestApprovalRuleOverridden" then "approve_rule_override"
  else "unknown"

def is_commit_to_branch_event (e : CodeCommitEvent) : Bool :=
  event_type e = "commit_to_branch"

def is_commit_to_branch_from_merge_event (e : CodeCommitEvent) : Bool :=
  event_type e = "commit_to_branch_from_merge"

def is_commit_event (e : CodeCommitEvent) : Bool :=
  is_commit_to_branch_event e || is_commit_to_branch_from_merge_event e

def is_create_branch_event (e : CodeCommitEvent) : Bool :=
  event_type e = "create_branch"

def is_delete_branch_event (e : CodeCommitEvent) : Bool :=
  event_type e = "delete_branch"

def is_pr_created_event (e : CodeCommitEvent) : Bool :=
  event_type e = "pr_created"

def is_pr_closed_event (e : CodeCommitEvent) : Bool :=
  event_type e = "pr_closed"

def is_pr_update_event (e : CodeCommitEvent) : Bool :=
  event_type e = "pr_updated"

def is_pr_merged_event (e : CodeCommitEvent) : Bool :=
  event_type e = "pr_merged"

def is_comment_on_pr_created_event (e : CodeCommitEvent) : Bool :=
  event_type e = "comment_on_pr_created"

def is_comment_on_pr_updated_event (e : CodeCommitEvent) : Bool :=
  event_type e = "comment_on_pr_updated"

def is_reply_to_comment_event (e : CodeCommitEvent) : Bool :=
  event_type e = "reply_to_comment"

/-- Model of `is_comment_event`; as in the source it covers only
`comment_on_pr_created` and `reply_to_comment`, not `comment_on_pr_updated`. -/
def is_comment_event (e : CodeCommitEvent) : Bool :=
  is_comment_on_pr_created_event e || is_reply_to_comment_event e

def is_approve_pr_event (e : CodeCommitEvent) : Bool :=
  event_type e = "approve_pr"

def is_approve_rule_override_event (e : CodeCommitEvent) : Bool :=
  event_type e = "approve_rule_override"

def is_pr_event (e : CodeCommitEvent) : Bool :=
  is_pr_created_event e || is_pr_update_event e || is_pr_merged_event e ||
    is_pr_closed_event e

def is_pr_created_or_updated_event (e : CodeCommitEvent) : Bool :=
  is_pr_created_event e || is_pr_update_event e

/-- Model of Python `s.replace(pat, rep, 1)` for a non-empty pattern: replace
the first occurrence of `pat`, leave the string unchanged when absent. -/
def replaceFirstL (pat rep : List Char) : List Char → List Char
  | [] => []
  | c :: rest =>
    if pat.isPrefixOf (c :: rest) then rep ++ (c :: rest).drop pat.length
    else c :: replaceFirstL pat rep rest

/-- Python `self.sourceReference.replace("refs/heads/", "", 1)` etc. -/
def stripRefsHeads (s : String) : String :=
  ⟨replaceFirstL ("refs/heads/".data) [] s.data⟩

/-- Model of the `source_branch` accessor. -/
def source_branch (e : CodeCommitEvent) : String :=
  if is_pr_event e then stripRefsHeads e.sourceReference
  else if is_commit_event e then e.referenceName
  else if is_comment_event e then ""
  else if is_approve_pr_event e || is_approve_rule_override_event e then
    stripRefsHeads e.sourceReference
  else ""

/-- Model of the `source_commit` accessor. -/
def source_commit (e : CodeCommitEvent) : String :=
  if is_pr_event e then e.sourceCommit
  else if is_commit_event e then e.commitId
  else if is_comment_event e then e.afterCommitId
  else if is_approve_pr_event e || is_approve_rule_override_event e then e.sourceCommit
  else ""

/-- Model of the `target_branch` accessor. -/
def target_branch (e : CodeCommitEvent) : String :=
  if is_pr_event e then stripRefsHeads e.destinationReference
  else if is_approve_pr_event e || is_approve_rule_override_event e then
    stripRefsHeads e.destinationReference
  else ""

/-- Model of the `target_commit` accessor. -/
def target_commit (e : CodeCommitEvent) : String :=
  if is_pr_event e then e.destinationCommit
  else if is_commit_event e then e.oldCommitId
  else if is_comment_event e then e.beforeCommitId
  else if is_approve_pr_event e || is_approve_rule_override_event e then e.destinationCommit
  else ""

/-! ## `notification.py`: construction from a raw notification payload -/

/-- Shallow model of the raw notification payload consumed by
`CodeCommitEvent.from_event`: the string-valued entries of the `detail` block,
the `repositoryNames` entry of the detail block when present (its value is a
list), and the `resources` list of the envelope. -/
structure NotificationPayload where
  detail : List (String × String)
  repositoryNames : Option (List String) := none
  resources : List String
  deriving Repr

/-- One keyword assignment of `cls(**kwargs)`: set the named field, or `none`
(the `TypeError` of an unexpected keyword) when the name is not a field. -/
def setField (e : CodeCommitEvent) (k v : String) : Option CodeCommitEvent :=
  if k = "afterCommitId" then some { e with afterCommitId := v }
  else if k = "approvalStatus" then some { e with approvalStatus := v }
  else if k = "author" then some { e with author := v }
  else if k = "beforeCommitId" then some { e with beforeCommitId := v }
  else if k = "callerUserArn" then some { e with callerUserArn := v }
  else if k = "commentId" then some { e with commentId := v }
  else if k = "commitId" then some { e with commitId := v }
  else if k = "creationDate" then some { e with creationDate := v }
  else if k = "destinationCommit" then some { e with destinationCommit := v }
  else if k = "destinationCommitId" then some { e with destinationCommitId := v }
  else if k = "destinationReference" then some { e with destinationReference := v }
  else if k = "event" then some { e with event := v }
  else if k = "isMerged" then some { e with isMerged := v }
  else if k = "inReplyTo" then some { e with inReplyTo := v }
  else if k = "lastModifiedDate" then some { e with lastModifiedDate := v }
  else if k = "mergeOption" then some { e with mergeOption := v }
  else if k = "notificationBody" then some { e with notificationBody := v }
  else if k = "oldCommitId" then some { e with oldCommitId := v }
  else if k = "overrideStatus" then some { e with overrideStatus := v }
  else if k = "pullRequestId" then some { e with pullRequestId := v }
  else if k = "pullRequestStatus" then some { e with pullRequestStatus := v }
  else if k = "referenceFullName" then some { e with referenceFullName := v }
  else if k = "referenceName" then some { e with referenceName := v }
  else if k = "referenceType" then some { e with referenceType := v }
  else if k = "repositoryId" then some { e with repositoryId := v }
  else if k = "repositoryName" then some { e with repositoryName := v }
  else if k = "revisionId" then some { e with revisionId := v }
  else if k = "sourceCommit" then some { e with sourceCommit := v }
  else if k = "sourceCommitId" then some { e with sourceCommitId := v }
  else if k = "sourceReference" then some { e with sourceReference := v }
  else if k = "title" then some { e with title := v }
  else if k = "aws_account_id" then some { e with aws_account_id := v }
  else if k = "aws_region" then some { e with aws_region := v }
  else none

/-- Apply the `detail` assignments in order. -/
def applyDetail (e : CodeCommitEvent) : List (String × String) → Option CodeCommitEvent
  | [] => some e
  | kv :: rest =>
    match setField e kv.1 kv.2 with
    | none => none
    | some e1 => applyDetail e1 rest

/-- Model of `CodeCommitEvent.from_event`: copy the detail entries, flatten a
`repositoryNames` singleton list into `repositoryName`, and take the account id
and region from the colon-separated first resource string (`none` models the
`IndexError`/`TypeError` paths of the Python code). -/
def from_event (p : NotificationPayload) : Option CodeCommitEvent :=
  match applyDetail {} p.detail with
  | none => none
  | some e1 =>
    let withRepo : Option CodeCommitEvent :=
      match p.repositoryNames with
      | none => some e1
      | some [] => none
      | some (n :: _) => some { e1 with repositoryName := n }
    match withRepo with
    | none => none
    | some e2 =>
      match p.resources with
      | [] => none
      | arn :: _ =>
        let parts := (splitOnChar ':' arn.data).map (fun l => (⟨l⟩ : String))
        if 5 ≤ parts.length then
          some { e2 with aws_account_id := parts.getD 4 "", aws_region := parts.getD 3 "" }
        else none

/-! ## Branch classification and the trigger policy

The `semantic_branch` module of this repository is not among the sources (only
its tests and its callers are), and `lambda_handler.py` consumes some event
attributes (`source_is_hotfix_branch`, `is_feature_branch`, `is_pub_commit`,
`is_rls_commit`, ...) of a library revision that is likewise not among the
sources.  Those parts are modelled from the spec below and flagged as such. -/

/-- Modelled from the spec: `is_certain_semantic_branch` of the missing
`semantic_branch` module — a case-insensitive prefix match of the branch name
against a list of stubs (§4.1 of the spec). -/
def is_certain_semantic_branch (name : String) (stubs : List String) : Bool :=
  stubs.any (fun stub => stub.data.isPrefixOf (pyLowerData name))

/-- Modelled from the spec: branch category `main`, exact case-insensitive
match of `"main"` or `"master"` (missing `semantic_branch` module). -/
def is_main_branch (name : String) : Bool :=
  pyLowerData name = "main".data || pyLowerData name = "master".data

/-- Modelled from the spec: branch category `feature`, prefix `"feat"`
(missing `semantic_branch` module). -/
def is_feature_branch (name : String) : Bool :=
  is_certain_semantic_branch name ["feat"]

/-- Modelled from the spec: branch category `release`, prefix `"rls"` or
`"release"` (missing `semantic_branch` module). -/
def is_release_branch (name : String) : Bool :=
  is_certain_semantic_branch name ["rls", "release"]

/-- Modelled from the spec: branch category `hotfix`, prefix `"fix"`
(missing `semantic_branch` module; `is_fix_branch` in the library). -/
def is_hotfix_branch (name : String) : Bool :=
  is_certain_semantic_branch name ["fix"]

/-- `is_layer_branch` from `lambda_handler.py`: the custom `layer` category. -/
def is_layer_branch (name : String) : Bool :=
  is_certain_semantic_branch name ["layer"]

/-- `CommitMessagePatternEnum.no_ci` from `lambda_handler.py`. -/
def no_ci : String := "no ci"

/-- Model of `do_we_trigger_build_job` from `lambda_handler.py`.

The commit message of the triggering commit is fetched from the repository by
an external collaborator (`get_commit_message_and_committer`), so it is an
explicit argument here.  The event attributes of the newer library revision
used by the handler are modelled from the spec: `source_is_*_branch` and the
compatibility-table `is_*_branch` attributes are the branch classifier applied
to `source_branch`, `target_is_main_branch` is it applied to `target_branch`,
and `is_pub_commit`/`is_rls_commit` are the publish (`pub`/`publish`) and
release (`rls`/`release`) commit predicates of §4.3. -/
def do_we_trigger_build_job (e : CodeCommitEvent) (commit_message : String) : Bool :=
  if is_commit_event e then false
  else if is_pr_created_event e || is_pr_update_event e then
    if pyStartsWith commit_message no_ci then false
    else if !(is_feature_branch (source_branch e) || is_layer_branch (source_branch e) ||
        is_release_branch (source_branch e) || is_hotfix_branch (source_branch e)) then false
    else if !(is_main_branch (target_branch e)) then false
    else if
        (is_pr_created_or_updated_event e && is_feature_branch (source_branch e) &&
          !(is_feat_commit commit_message || is_build_commit commit_message ||
            is_publish_commit commit_message || is_utest_commit commit_message ||
            is_itest_commit commit_message || is_ltest_commit commit_message)) ||
        (is_pr_created_or_updated_event e && is_layer_branch (source_branch e) &&
          !(is_feat_commit commit_message || is_build_commit commit_message ||
            is_publish_commit commit_message || is_utest_commit commit_message)) ||
        (is_pr_created_or_updated_event e && is_release_branch (source_branch e) &&
          !(is_test_commit commit_message || is_fix_commit commit_message ||
            is_release_commit commit_message)) ||
        (is_pr_created_or_updated_event e && is_hotfix_branch (source_branch e) &&
          !(is_fix_commit commit_message)) then false
    else true
  else if is_pr_merged_event e then true
  else if is_create_branch_event e || is_delete_branch_event e || is_comment_event e ||
      is_approve_pr_event e then false
  else false

/-! ## Theorems -/

/-- C3: classification of `pullRequestMergeStatusUpdated` records: with
`isMerged="True"` and `pullRequestStatus="Closed"` the classifier returns
`pr_merged`; with `isMerged="False"` (all other fields unchanged) it returns
`unknown`. -/
theorem event_type_pr_merged_classification :
    (∀ e : CodeCommitEvent, e.event = "pullRequestMergeStatusUpdated" →
      e.isMerged = "True" → e.pullRequestStatus = "Closed" →
      event_type e = "pr_merged") ∧
    (∀ e : CodeCommitEvent, e.event = "pullRequestMergeStatusUpdated" →
      e.isMerged = "False" → e.pullRequestStatus = "Closed" →
      event_type e = "unknown") := by
  constructor <;> intro e h1 h2 h3 <;> simp [event_type, h1, h2, h3]

/-- Witness for C3 at two concrete records. -/
theorem event_type_pr_merged_classification_witness :
    event_type { event := "pullRequestMergeStatusUpdated", isMerged := "True",
                 pullRequestStatus := "Closed" } = "pr_merged" ∧
    event_type { event := "pullRequestMergeStatusUpdated", isMerged := "False",
                 pullRequestStatus := "Closed" } = "unknown" :=
  ⟨event_type_pr_merged_classification.1 _ rfl rfl rfl,
   event_type_pr_merged_classification.2 _ rfl rfl rfl⟩

/-- C8 (amended): for the `comment_on_pr_created` and `reply_to_comment` kinds
`source_commit` is `afterCommitId`, `target_commit` is `beforeCommitId` and
both branch accessors are empty; for the `comment_on_pr_updated` kind all four
accessors return the empty string, because `is_comment_event` covers only the
first two comment kinds. -/
theorem comment_event_accessors :
    ∀ e : CodeCommitEvent,
      ((event_type e = "comment_on_pr_created" ∨ event_type e = "reply_to_comment") →
        source_commit e = e.afterCommitId ∧ target_commit e = e.beforeCommitId ∧
        source_branch e = "" ∧ target_branch e = "") ∧
      (event_type e = "comment_on_pr_updated" →
        source_commit e = "" ∧ target_commit e = "" ∧
        source_branch e = "" ∧ target_branch e = "") := by
  intro e
  constructor
  · rintro (h | h) <;>
      simp [source_commit, target_commit, source_branch, target_branch,
        is_pr_event, is_commit_event, is_comment_event,
        is_pr_created_event, is_pr_update_event, is_pr_merged_event, is_pr_closed_event,
        is_commit_to_branch_event, is_commit_to_branch_from_merge_event,
        is_comment_on_pr_created_event, is_reply_to_comment_event,
        is_approve_pr_event, is_approve_rule_override_event, h]
  · intro h
    simp [source_commit, target_commit, source_branch, target_branch,
      is_pr_event, is_commit_event, is_comment_event,
      is_pr_created_event, is_pr_update_event, is_pr_merged_event, is_pr_closed_event,
      is_commit_to_branch_event, is_commit_to_branch_from_merge_event,
      is_comment_on_pr_created_event, is_reply_to_comment_event,
      is_approve_pr_event, is_approve_rule_override_event, h]

/-- Witness for C8 at a concrete comment-created record. -/
theorem comment_event_accessors_witness :
    source_commit { event := "commentOnPullRequestCreated", afterCommitId := "a1",
                    beforeCommitId := "b1" } = "a1" ∧
    target_commit { event := "commentOnPullRequestCreated", afterCommitId := "a1",
                    beforeCommitId := "b1" } = "b1" := by
  have h := (comment_event_accessors
    { event := "commentOnPullRequestCreated", afterCommitId := "a1",
      beforeCommitId := "b1" }).1 (Or.inl (by decide))
  exact ⟨h.1, h.2.1⟩

/-- Counterexample for C8 as stated: on a `comment_on_pr_updated` record the
`source_commit`/`target_commit` accessors do not return
`afterCommitId`/`beforeCommitId` — they return the empty string. -/
theorem comment_on_pr_updated_accessor_counterexample :
    event_type { event := "commentOnPullRequestUpdated", afterCommitId := "a1",
                 beforeCommitId := "b1" } = "comment_on_pr_updated" ∧
    source_commit { event := "commentOnPullRequestUpdated", afterCommitId := "a1",
                    beforeCommitId := "b1" } ≠
      ({ event := "commentOnPullRequestUpdated", afterCommitId := "a1",
         beforeCommitId := "b1" } : CodeCommitEvent).afterCommitId ∧
    target_commit { event := "commentOnPullRequestUpdated", afterCommitId := "a1",
                    beforeCommitId := "b1" } ≠
      ({ event := "commentOnPullRequestUpdated", afterCommitId := "a1",
         beforeCommitId := "b1" } : CodeCommitEvent).beforeCommitId := by
  refine ⟨by decide, by decide, by decide⟩

/-- C7: `is_certain_semantic_commit` returns `false` (rather than failing)
whenever the message does not parse, and on a successful parse it returns
`true` exactly when the parsed types meet the stub set. -/
theorem is_certain_semantic_commit_spec :
    ∀ (msg : String) (stubs : List String),
      (parse_message defaultParserTypes msg = none →
        is_certain_semantic_commit msg stubs = false) ∧
      (∀ c, parse_message defaultParserTypes msg = some c →
        (is_certain_semantic_commit msg stubs = true ↔ ∃ t ∈ c.types, t ∈ stubs)) := by
  intro msg stubs
  constructor
  · intro h
    simp [is_certain_semantic_commit, h]
  · intro c hc
    simp [is_certain_semantic_commit, hc, List.any_eq_true]

/-- Witness for C7: an unparseable message gives `false`, and a parsed message
meets exactly the stubs intersecting its types. -/
theorem is_certain_semantic_commit_spec_witness :
    is_certain_semantic_commit "no colon here" ["fix"] = false ∧
    is_certain_semantic_commit "fix: y" ["fix", "feat"] = true := by
  have h1 := (is_certain_semantic_commit_spec "no colon here" ["fix"]).1 (by decide)
  have h2 := ((is_certain_semantic_commit_spec "fix: y" ["fix", "feat"]).2
    { types := ["fix"], description := "y", scope := none, breaking := none }
    (by decide)).2 ⟨"fix", by decide, by decide⟩
  exact ⟨h1, h2⟩

/-- C6 (amended): every entry of the types list of a successfully parsed
commit is a member of the configured vocabulary; the list is however not
deduplicated (see the counterexample), the parser only filters against the
vocabulary. -/
theorem parsed_types_subset_vocabulary :
    ∀ (voc : List String) (msg : String) (c : ConventionalCommit),
      parse_message voc msg = some c → ∀ t ∈ c.types, t ∈ voc := by
  intro voc msg c hc t ht
  unfold parse_message extract_commit at hc
  cases hm : matchSubject (extract_subject msg).data with
  | none => rw [hm] at hc; exact absurd hc (by simp)
  | some m =>
    rw [hm] at hc
    have hc' := Option.some.inj hc
    rw [← hc'] at ht
    simp only [List.mem_filter] at ht
    exact List.mem_of_elem_eq_true ht.2

/-- Witness for C6 at a concrete parsed message. -/
theorem parsed_types_subset_vocabulary_witness :
    ("fix" : String) ∈ defaultParserTypes :=
  parsed_types_subset_vocabulary defaultParserTypes "fix: y"
    { types := ["fix"], description := "y", scope := none, breaking := none }
    (by decide) "fix" (by decide)

/-- Counterexample for C6 as stated: the message `"fix, fix: x"` parses and its
types list `["fix", "fix"]` contains a duplicate entry. -/
theorem parsed_types_duplicate_counterexample :
    parse_message defaultParserTypes "fix, fix: x" =
      some { types := ["fix", "fix"], description := "x",
             scope := none, breaking := none } ∧
    ¬ (["fix", "fix"] : List String).Nodup := by
  exact ⟨by decide, by decide⟩

/-- C2: the trigger policy denies every pull-request-created or
pull-request-updated event whose commit message starts with the exact marker
`"no ci"`, regardless of the branches. -/
theorem trigger_no_ci_denies_pr :
    ∀ (e : CodeCommitEvent) (msg : String),
      (event_type e = "pr_created" ∨ event_type e = "pr_updated") →
      pyStartsWith msg no_ci = true →
      do_we_trigger_build_job e msg = false := by
  intro e msg h hst
  have hcomm : is_commit_event e = false := by
    rcases h with h | h <;>
      simp [is_commit_event, is_commit_to_branch_event,
        is_commit_to_branch_from_merge_event, h]
  have hpr : (is_pr_created_event e || is_pr_update_event e) = true := by
    rcases h with h | h <;> simp [is_pr_created_event, is_pr_update_event, h]
  simp [do_we_trigger_build_job, hcomm, hpr, hst]

/-- Witness for C2 at a concrete pull-request-created record. -/
theorem trigger_no_ci_denies_pr_witness :
    do_we_trigger_build_job
      { event := "pullRequestCreated", isMerged := "False", pullRequestStatus := "Open",
        sourceReference := "refs/heads/feat/1", destinationReference := "refs/heads/main" }
      "no ci: skip" = false :=
  trigger_no_ci_denies_pr _ _ (Or.inl (by decide)) (by decide)

/-- Two mutually non-prefix words cannot both be prefixes of one list. -/
theorem not_isPrefixOf_of_incompatible {p q l : List Char}
    (hp : p.isPrefixOf l = true) (h1 : ¬ p <+: q) (h2 : ¬ q <+: p) :
    q.isPrefixOf l = false := by
  rw [← Bool.not_eq_true, List.isPrefixOf_iff_prefix]
  intro hq
  rcases List.prefix_or_prefix_of_prefix (List.isPrefixOf_iff_prefix.mp hp) hq with h | h
  · exact h1 h
  · exact h2 h

/-- C1: for a pull-request-created/updated event from a hotfix-category source
branch into a main-category target branch, the trigger policy denies every
commit message that does not carry the `fix` type (in particular `"feat: x"`)
and approves the message `"fix: x"`. -/
theorem trigger_hotfix_pr_requires_fix_commit :
    ∀ (e : CodeCommitEvent),
      (event_type e = "pr_created" ∨ event_type e = "pr_updated") →
      is_main_branch (target_branch e) = true →
      is_hotfix_branch (source_branch e) = true →
      (∀ msg : String, is_fix_commit msg = false →
        do_we_trigger_build_job e msg = false) ∧
      (∀ msg : String, pyStartsWith msg no_ci = false → is_fix_commit msg = true →
        do_we_trigger_build_job e msg = true) := by
  intro e h hmain hfix
  have hcomm : is_commit_event e = false := by
    rcases h with h | h <;>
      simp [is_commit_event, is_commit_to_branch_event,
        is_commit_to_branch_from_merge_event, h]
  have hpr : (is_pr_created_event e || is_pr_update_event e) = true := by
    rcases h with h | h <;> simp [is_pr_created_event, is_pr_update_event, h]
  have hcu : is_pr_created_or_updated_event e = true := by
    simpa [is_pr_created_or_updated_event] using hpr
  have hfix' : ("fix".data).isPrefixOf (pyLowerData (source_branch e)) = true := by
    simpa [is_hotfix_branch, is_certain_semantic_branch] using hfix
  have hfeat : is_feature_branch (source_branch e) = false := by
    simp only [is_feature_branch, is_certain_semantic_branch, List.any_cons, List.any_nil,
      Bool.or_false]
    exact not_isPrefixOf_of_incompatible hfix' (by decide) (by decide)
  have hlayer : is_layer_branch (source_branch e) = false := by
    simp only [is_layer_branch, is_certain_semantic_branch, List.any_cons, List.any_nil,
      Bool.or_false]
    exact not_isPrefixOf_of_incompatible hfix' (by decide) (by decide)
  have hrel : is_release_branch (source_branch e) = false := by
    simp only [is_release_branch, is_certain_semantic_branch, List.any_cons, List.any_nil,
      Bool.or_false]
    rw [not_isPrefixOf_of_incompatible hfix' (by decide) (by decide),
      not_isPrefixOf_of_incompatible hfix' (by decide) (by decide)]
    rfl
  have hhot : is_hotfix_branch (source_branch e) = true := hfix
  constructor
  · intro msg hmsg
    by_cases hnc : pyStartsWith msg no_ci = true
    · exact trigger_no_ci_denies_pr e msg h hnc
    · have hnc' : pyStartsWith msg no_ci = false := by
        simpa [Bool.not_eq_true] using hnc
      simp [do_we_trigger_build_job, hcomm, hpr, hcu, hfeat, hlayer, hrel, hhot, hmain,
        hmsg, hnc']
  · intro msg hnc hmsg
    simp [do_we_trigger_build_job, hcomm, hpr, hcu, hfeat, hlayer, hrel, hhot, hmain,
      hmsg, hnc]

/-- Witness for C1 at a concrete hotfix-to-main pull-request record. -/
theorem trigger_hotfix_pr_requires_fix_commit_witness :
    do_we_trigger_build_job
      { event := "pullRequestCreated", isMerged := "False", pullRequestStatus := "Open",
        sourceReference := "refs/heads/fix/1", destinationReference := "refs/heads/main" }
      "feat: x" = false ∧
    do_we_trigger_build_job
      { event := "pullRequestCreated", isMerged := "False", pullRequestStatus := "Open",
        sourceReference := "refs/heads/fix/1", destinationReference := "refs/heads/main" }
      "fix: x" = true := by
  have h := trigger_hotfix_pr_requires_fix_commit
    { event := "pullRequestCreated", isMerged := "False", pullRequestStatus := "Open",
      sourceReference := "refs/heads/fix/1", destinationReference := "refs/heads/main" }
    (Or.inl (by decide)) (by decide) (by decide)
  exact ⟨h.1 "feat: x" (by decide), h.2 "fix: x" (by decide) (by decide)⟩

/-- The stripped list is a subsequence of the original. -/
theorem pyStrip_sublist (l : List Char) : List.Sublist (pyStrip l) l := by
  have h1 : List.Sublist (pyStrip l) (l.dropWhile Char.isWhitespace) := by
    have h2 := (List.dropWhile_suffix (l := (l.dropWhile Char.isWhitespace).reverse)
      Char.isWhitespace).sublist.reverse
    rw [List.reverse_reverse] at h2
    exact h2
  exact h1.trans (List.dropWhile_suffix Char.isWhitespace).sublist

/-- The head piece of a split is the longest separator-free prefix. -/
theorem splitOnChar_headD (sep : Char) (l : List Char) :
    (splitOnChar sep l).headD [] = l.takeWhile (fun c => c != sep) := by
  induction l with
  | nil => rfl
  | cons c rest ih =>
    by_cases h : c = sep
    · subst h
      simp [splitOnChar, List.takeWhile_cons]
    · cases hps : splitOnChar sep rest with
      | nil =>
        rw [hps] at ih
        simp only [List.headD_nil] at ih
        simp [splitOnChar, h, hps, List.takeWhile_cons, ← ih]
      | cons p ps =>
        rw [hps] at ih
        simp only [List.headD_cons] at ih
        simp [splitOnChar, h, hps, List.takeWhile_cons, ← ih]

/-- A successful `scopeStep` leaves a subsequence of its input. -/
theorem scopeStep_sublist {r0 r : List Char} {sc : Option (List Char)}
    (h : scopeStep r0 = some (sc, r)) : List.Sublist r r0 := by
  unfold scopeStep at h
  split at h
  · rename_i r1
    split at h
    · rename_i r3 heq
      split at h
      · exact absurd h (by simp)
      · have hr : r = r3 := by
          have := Option.some.inj h
          exact (congrArg Prod.snd this).symm
        subst hr
        have h1 : List.Sublist (')' :: r) r1 := by
          rw [← heq]
          exact (List.dropWhile_suffix isScopeChar).sublist
        exact ((List.sublist_cons_self ')' r).trans h1).cons '('
    · exact absurd h (by simp)
  · have hr : r = r0 := by
      have := Option.some.inj h
      exact (congrArg Prod.snd this).symm
    subst hr
    exact List.Sublist.refl r

/-- A successful `breakStep` requires a colon in its input. -/
theorem breakStep_colon {r r2 : List Char} {br : Option (List Char)}
    (h : breakStep r = some (br, r2)) : ':' ∈ r := by
  unfold breakStep at h
  split at h
  · simp
  · simp
  · exact absurd h (by simp)

/-- A successful subject match requires a colon in the subject. -/
theorem matchSubject_colon {s : List Char} {m : SubjectMatch}
    (h : matchSubject s = some m) : ':' ∈ s := by
  unfold matchSubject at h
  split at h
  · exact absurd h (by simp)
  · split at h
    · exact absurd h (by simp)
    · rename_i sc r heq1
      split at h
      · exact absurd h (by simp)
      · rename_i br r2 heq2
        have h1 : ':' ∈ r := breakStep_colon heq2
        have h2 : List.Sublist r (s.dropWhile isTypesChar) := scopeStep_sublist heq1
        exact (List.dropWhile_suffix isTypesChar).sublist.subset (h2.subset h1)

/-- The extracted subject is built from a subsequence of the message. -/
theorem extract_subject_sublist (msg : String) :
    List.Sublist (extract_subject msg).data msg.data := by
  show List.Sublist (pyStrip ((splitOnChar '\n' msg.data).headD [])) msg.data
  rw [splitOnChar_headD]
  exact (pyStrip_sublist _).trans (List.takeWhile_sublist _)

/-- C5: the two spec examples parse to the stated records, and any message
whose characters contain no colon fails to parse. -/
theorem parse_message_examples_and_no_colon :
    parse_message defaultParserTypes "feat, build(STORY-001): add validator" =
      some { types := ["feat", "build"], description := "add validator",
             scope := some "STORY-001", breaking := none } ∧
    parse_message defaultParserTypes "fix (API)!: no longer support X" =
      some { types := ["fix"], description := "no longer support X",
             scope := some "API", breaking := some "!" } ∧
    ∀ msg : String, ':' ∉ msg.data → parse_message defaultParserTypes msg = none := by
  refine ⟨by decide, by decide, ?_⟩
  intro msg h
  unfold parse_message extract_commit
  cases hm : matchSubject (extract_subject msg).data with
  | none => rfl
  | some m =>
    exact absurd ((extract_subject_sublist msg).subset (matchSubject_colon hm)) h

/-- Witness for C5: a colon-free message fails to parse. -/
theorem parse_message_examples_and_no_colon_witness :
    parse_message defaultParserTypes "hello world" = none :=
  parse_message_examples_and_no_colon.2.2 "hello world" (by decide)

/-- Splitting and flattening keeps exactly the non-separator characters. -/
theorem splitOnChar_flatten (sep : Char) (l : List Char) :
    (splitOnChar sep l).flatten = l.filter (fun c => c != sep) := by
  induction l with
  | nil => rfl
  | cons c rest ih =>
    by_cases h : c = sep
    · subst h
      simp [splitOnChar, List.filter_cons, ih]
    · cases hps : splitOnChar sep rest with
      | nil =>
        rw [hps] at ih
        simp only [List.flatten_nil] at ih
        simp [splitOnChar, h, hps, List.filter_cons, ← ih]
      | cons p ps =>
        rw [hps] at ih
        simp [splitOnChar, h, hps, List.filter_cons, ← ih]

/-- Replacing the delimiters by spaces and then dropping all spaces leaves a
subsequence of the original character list. -/
theorem pyReplaceDelims_filter_sublist (l : List Char) :
    List.Sublist ((pyReplaceDelims l).filter (fun c => c != ' ')) l := by
  induction l with
  | nil => simp [pyReplaceDelims]
  | cons c rest ih =>
    have hcons : pyReplaceDelims (c :: rest) =
        (if DELIMITERS.data.contains c then ' ' else c) :: pyReplaceDelims rest := rfl
    by_cases h : DELIMITERS.data.contains c = true
    · rw [hcons, if_pos h, List.filter_cons]
      have hsp : ((' ' : Char) != ' ') = false := by decide
      rw [hsp, if_neg (by simp)]
      exact ih.cons c
    · rw [hcons, if_neg h, List.filter_cons]
      have h3 : c ≠ ' ' := by
        intro hc
        subst hc
        exact h (by decide)
      have h4 : (c != ' ') = true := by simpa using h3
      rw [h4, if_pos (by simp)]
      exact ih.cons₂ c

/-- Stripping each piece and dropping empty pieces yields a subsequence of the
concatenation of the pieces. -/
theorem strip_filter_flatten_sublist (ps : List (List Char)) :
    List.Sublist (((ps.map pyStrip).filter (fun w => !w.isEmpty)).flatten) ps.flatten := by
  induction ps with
  | nil => simp
  | cons p rest ih =>
    simp only [List.map_cons, List.filter_cons, List.flatten_cons]
    by_cases h : (pyStrip p).isEmpty = true
    · rw [h]
      have hfalse : (!true) = false := rfl
      rw [hfalse, if_neg (by simp)]
      exact ih.trans (List.sublist_append_right p rest.flatten)
    · have h2 : (!(pyStrip p).isEmpty) = true := by simp [h]
      rw [h2, if_pos (by simp)]
      simp only [List.flatten_cons]
      exact (pyStrip_sublist p).append ih

/-- C10: `tokenize` of the empty string is empty; every returned token is a
non-empty string free of delimiter characters; and the tokens appear in input
order — the concatenation of their characters is a subsequence of the input's
characters. -/
theorem tokenize_spec :
    tokenize "" = [] ∧
    ∀ text : String,
      (∀ w ∈ tokenize text, w.data ≠ [] ∧ ∀ c ∈ w.data, c ∉ DELIMITERS.data) ∧
      List.Sublist ((tokenize text).map String.data).flatten text.data := by
  refine ⟨by decide, ?_⟩
  intro text
  constructor
  · intro w hw
    unfold tokenize at hw
    simp only [List.mem_map] at hw
    obtain ⟨l, hl, rfl⟩ := hw
    rw [List.mem_filter] at hl
    obtain ⟨hlm, hlne⟩ := hl
    constructor
    · simpa using hlne
    · intro c hc
      simp only [List.mem_map] at hlm
      obtain ⟨p, hp, rfl⟩ := hlm
      have hcp : c ∈ p := (pyStrip_sublist p).subset hc
      have hcf : c ∈ (splitOnChar ' ' (pyReplaceDelims text.data)).flatten :=
        List.mem_flatten.mpr ⟨p, hp, hcp⟩
      rw [splitOnChar_flatten] at hcf
      rw [List.mem_filter] at hcf
      obtain ⟨hcmem, hcne⟩ := hcf
      have hcsp : c ≠ ' ' := by simpa using hcne
      simp only [pyReplaceDelims, List.mem_map] at hcmem
      obtain ⟨c0, _, hc0⟩ := hcmem
      by_cases hd : DELIMITERS.data.contains c0
      · rw [if_pos hd] at hc0
        exact absurd hc0.symm hcsp
      · rw [if_neg hd] at hc0
        subst hc0
        simpa using hd
  · unfold tokenize
    have hmm :
        ((((splitOnChar ' ' (pyReplaceDelims text.data)).map pyStrip).filter
          (fun w => !w.isEmpty)).map (fun w => (⟨w⟩ : String))).map String.data =
        (((splitOnChar ' ' (pyReplaceDelims text.data)).map pyStrip).filter
          (fun w => !w.isEmpty)) := by
      rw [List.map_map]
      exact List.map_id' _
    rw [hmm]
    have h1 := strip_filter_flatten_sublist (splitOnChar ' ' (pyReplaceDelims text.data))
    rw [splitOnChar_flatten] at h1
    exact h1.trans (pyReplaceDelims_filter_sublist text.data)

/-- Witness for C10 at a concrete input and token. -/
theorem tokenize_spec_witness :
    ("a" : String).data ≠ [] ∧ ∀ c ∈ ("a" : String).data, c ∉ DELIMITERS.data :=
  (tokenize_spec.2 "a, b").1 "a" (by decide)

/-- The field names are self-consistent with the field/value list. -/
theorem eventFieldNames_eq : eventFieldNames = (eventFields {}).map Prod.fst := by decide

/-- A keyword assignment with a declared field name always succeeds. -/
theorem setField_total {k : String} (hk : k ∈ eventFieldNames)
    (e : CodeCommitEvent) (v : String) : ∃ e2, setField e k v = some e2 := by
  fin_cases hk <;> exact ⟨_, rfl⟩

/-- Applying detail assignments whose keys are all field names succeeds. -/
theorem applyDetail_total :
    ∀ (l : List (String × String)) (e : CodeCommitEvent),
      (∀ kv ∈ l, kv.1 ∈ eventFieldNames) → ∃ e2, applyDetail e l = some e2 := by
  intro l
  induction l with
  | nil => exact fun e _ => ⟨e, rfl⟩
  | cons kv rest ih =>
    intro e h
    obtain ⟨e1, he1⟩ := setField_total (h kv (List.mem_cons_self kv rest)) e kv.2
    have := ih e1 (fun kv2 h2 => h kv2 (List.mem_cons_of_mem kv h2))
    obtain ⟨e2, he2⟩ := this
    exact ⟨e2, by simp [applyDetail, he1, he2]⟩

/-- C9: `from_event` succeeds on every payload whose detail keys are field
names, whose `repositoryNames` entry (when present) is non-empty, and whose
first resource splits on `":"` into at least five parts; the account id and
region are parts 4 and 3 of that resource, and `repositoryName` is the first
element of `repositoryNames` when present. -/
theorem from_event_success :
    ∀ (p : NotificationPayload),
      (∀ kv ∈ p.detail, kv.1 ∈ eventFieldNames) →
      p.repositoryNames ≠ some [] →
      ∀ arn rest, p.resources = arn :: rest →
      5 ≤ ((splitOnChar ':' arn.data).map (fun l => (⟨l⟩ : String))).length →
      ∃ e, from_event p = some e ∧
        e.aws_account_id =
          ((splitOnChar ':' arn.data).map (fun l => (⟨l⟩ : String))).getD 4 "" ∧
        e.aws_region =
          ((splitOnChar ':' arn.data).map (fun l => (⟨l⟩ : String))).getD 3 "" ∧
        ∀ n ns, p.repositoryNames = some (n :: ns) → e.repositoryName = n := by
  intro p hdet hrepo arn rest hres hlen
  obtain ⟨e1, he1⟩ := applyDetail_total p.detail {} hdet
  cases hrn : p.repositoryNames with
  | none =>
    have hfe : from_event p =
        (if 5 ≤ ((splitOnChar ':' arn.data).map (fun l => (⟨l⟩ : String))).length then
          some { e1 with
            aws_account_id :=
              ((splitOnChar ':' arn.data).map (fun l => (⟨l⟩ : String))).getD 4 ""
            aws_region :=
              ((splitOnChar ':' arn.data).map (fun l => (⟨l⟩ : String))).getD 3 "" }
        else none) := by
      unfold from_event
      rw [he1, hrn, hres]
    rw [if_pos hlen] at hfe
    refine ⟨_, hfe, rfl, rfl, ?_⟩
    intro n ns hn
    exact absurd hn (by simp)
  | some names =>
    cases names with
    | nil => exact absurd hrn hrepo
    | cons n ns =>
      have hfe : from_event p =
          (if 5 ≤ ((splitOnChar ':' arn.data).map (fun l => (⟨l⟩ : String))).length then
            some { e1 with
              repositoryName := n
              aws_account_id :=
                ((splitOnChar ':' arn.data).map (fun l => (⟨l⟩ : String))).getD 4 ""
              aws_region :=
                ((splitOnChar ':' arn.data).map (fun l => (⟨l⟩ : String))).getD 3 "" }
          else none) := by
        unfold from_event
        rw [he1, hrn, hres]
      rw [if_pos hlen] at hfe
      refine ⟨_, hfe, rfl, rfl, ?_⟩
      intro n2 ns2 hn2
      have h4 : n = n2 := by
        have := Option.some.inj hn2
        exact ((List.cons.injEq ..).mp this).1
      exact h4 ▸ rfl

/-- Witness for C9 at a concrete notification payload. -/
theorem from_event_success_witness :
    ∃ e, from_event
        { detail := [("event", "x"), ("sourceCommit", "abc")],
          repositoryNames := some ["my_repo"],
          resources := ["arn:aws:codecommit:us-east-1:111122223333:my_repo"] } = some e ∧
      e.aws_account_id = "111122223333" ∧ e.aws_region = "us-east-1" ∧
      e.repositoryName = "my_repo" := by
  obtain ⟨e, h1, h2, h3, h4⟩ := from_event_success
    { detail := [("event", "x"), ("sourceCommit", "abc")],
      repositoryNames := some ["my_repo"],
      resources := ["arn:aws:codecommit:us-east-1:111122223333:my_repo"] }
    (by decide) (by decide)
    "arn:aws:codecommit:us-east-1:111122223333:my_repo" [] rfl (by decide)
  refine ⟨e, h1, ?_, ?_, h4 "my_repo" [] rfl⟩
  · rw [h2]; decide
  · rw [h3]; decide

/-- Appending commutes with the character-wise upper-casing. -/
theorem pyUpper_append (a b : String) : pyUpper (a ++ b) = pyUpper a ++ pyUpper b := by
  have h : (a ++ b).data.map Char.toUpper =
      (pyUpper a).data ++ (pyUpper b).data := by
    simp [pyUpper]
  exact congrArg String.mk h

/-- String concatenation on the left is cancellative. -/
theorem string_append_left_cancel {p x y : String} (h : p ++ x = p ++ y) : x = y := by
  have hd : p.data ++ x.data = p.data ++ y.data := by
    have := congrArg String.data h
    simpa using this
  exact congrArg String.mk (List.append_cancel_left hd)

/-- Looking a mapped key up in an association list whose keys were transformed
by an injective function finds the entry of the original key. -/
theorem lookup_map_inj {f : String → String} (hf : ∀ x y, f x = f y → x = y)
    (k : String) (l : List (String × String)) :
    List.lookup (f k) (l.map (fun kv => (f kv.1, kv.2))) = List.lookup k l := by
  induction l with
  | nil => rfl
  | cons kv rest ih =>
    by_cases h : k = kv.1
    · subst h
      simp [List.lookup]
    · have h2 : (k == kv.1) = false := by simpa using h
      have h3 : (f k == f kv.1) = false := by
        rw [beq_eq_false_iff_ne]
        intro hfk
        exact h (hf _ _ hfk)
      simp [List.lookup, h2, h3, ih]

/-- C4: deserializing the environment mapping produced by serializing a
`CodeCommitEvent` under any prefix returns the original record, field for
field. -/
theorem env_var_roundtrip :
    ∀ (e : CodeCommitEvent) (pre : String),
      from_env_var (to_env_var e pre) pre = e := by
  intro e pre
  have hkey : ∀ (e : CodeCommitEvent) (name : String),
      envField (to_env_var e pre) pre name =
      (List.lookup (pyUpper name)
        ((eventFields e).reverse.map (fun kv => (pyUpper kv.1, kv.2)))).getD "" := by
    intro e name
    unfold envField dictGet to_env_var
    have h1 : ((eventFields e).map (fun kv => (pyUpper (pre ++ kv.1), kv.2))).reverse =
        ((eventFields e).reverse.map (fun kv => (pyUpper kv.1, kv.2))).map
          (fun kv => (pyUpper pre ++ kv.1, kv.2)) := by
      rw [← List.map_reverse, List.map_map]
      apply List.map_congr_left
      intro kv _
      simp [Function.comp, pyUpper_append]
    rw [h1, pyUpper_append]
    rw [lookup_map_inj (fun x y h => string_append_left_cancel h) (pyUpper name)]
  cases e
  simp only [from_env_var]
  congr 1 <;> (rw [hkey]; rfl)

end AwsCC
